import Mathlib

/-
Verification of the BL531 beamline control client.

This file gives a shallow embedding of the two core components of the
repository, BL531API (plan submission and completion polling against the
Bluesky Queue Server) and BL531DataAPI (run data retrieval and key-name
categorization against a Tiled catalog), and proves the testable
properties of the specification against that embedding.

Modelling conventions:
- JSON objects read by the client become structures holding exactly the
  fields the client reads; a missing field is an Option none or the
  documented default (entry.get with default).
- The 1-second polling loop of _wait_for_completion is modelled with the
  elapsed time abstracted as the number of completed sleep intervals:
  iteration i runs at elapsed time i seconds, and the loop body checks
  elapsed > timeout before each history fetch, exactly as the source does.
  The successive history responses are a function from the poll index.
- Network effects are made explicit: each operation returns the list of
  HTTP calls it issued alongside its outcome, so that properties of the
  form "raises before any network call" are statements about that list.
-/

namespace BL531

/-- Fields of the result object of one history entry, as read by
_wait_for_completion: result.get("exit_status") and
result.get("run_uids", []). A history entry with no result object at all
is modelled by exit_status none and run_uids empty, which is what
entry.get("result", ...) followed by those two .get calls produces. -/
structure HistoryResult where
  exit_status : Option String
  run_uids : List String
deriving DecidableEq, Repr

/-- One item of the history response of GET /api/history/get, restricted
to the fields the client reads: entry.get("item_uid") and the result
object. -/
structure HistoryEntry where
  item_uid : Option String
  result : HistoryResult
deriving DecidableEq, Repr

/-- Outcome of one pass of the for-loop over history items inside
_wait_for_completion: either a run uid is returned, or a RuntimeError is
raised with the terminal status, or the loop falls through to the next
1-second sleep and poll. -/
inductive PollOutcome where
  | found (run_uid : String)
  | failure (status : String)
  | keepWaiting
deriving DecidableEq, Repr

/-- One pass of the for-loop of _wait_for_completion over the items of a
single history response: the first entry whose item_uid matches decides,
returning run_uids[0] when run_uids is nonempty and exit_status is
"completed", raising when exit_status is "failed" or "unknown", and
otherwise continuing with the remaining entries. -/
def scanEntries (uid : String) : List HistoryEntry → PollOutcome
  | [] => .keepWaiting
  | e :: rest =>
    if e.item_uid = some uid then
      if e.result.run_uids ≠ [] ∧ e.result.exit_status = some "completed" then
        .found (e.result.run_uids.headD "")
      else if e.result.exit_status = some "failed" ∨ e.result.exit_status = some "unknown" then
        .failure (e.result.exit_status.getD "")
      else
        scanEntries uid rest
    else
      scanEntries uid rest

/-- Final outcome of _wait_for_completion: the returned run uid, the
RuntimeError of a failed or unknown terminal status, or the TimeoutError
raised when the bounded wait elapses. -/
inductive WaitResult where
  | success (run_uid : String)
  | execFailure (status : String)
  | timedOut
deriving DecidableEq, Repr

/-- Polling loop of _wait_for_completion. The first argument of the
match is the poll index i (the elapsed whole seconds when the loop body
runs, each iteration ending in time.sleep(1)); the second is the fuel
timeout + 1 - i, which encodes the check elapsed > timeout at the top of
the loop body. Returns the number of history fetches issued together
with the outcome. -/
def waitLoop (uid : String) (responses : Nat → List HistoryEntry) :
    Nat → Nat → Nat × WaitResult
  | _, 0 => (0, .timedOut)
  | i, fuel + 1 =>
    match scanEntries uid (responses i) with
    | .found u => (1, .success u)
    | .failure s => (1, .execFailure s)
    | .keepWaiting =>
      let p := waitLoop uid responses (i + 1) fuel
      (p.1 + 1, p.2)

/-- Default timeout of _wait_for_completion, in seconds. -/
def DEFAULT_TIMEOUT : Nat := 300

/-- The whole of _wait_for_completion: poll the history endpoint once a
second from elapsed time 0 until the submitted item reaches a terminal
state or the timeout elapses. -/
def wait_for_completion (uid : String) (responses : Nat → List HistoryEntry)
    (timeout : Nat) : Nat × WaitResult :=
  waitLoop uid responses 0 (timeout + 1)

/-- A history response none of whose entries matching the submitted item
is terminal (neither completed with run uids, nor failed, nor unknown)
makes the for-loop fall through to the next poll. -/
theorem scanEntries_keepWaiting (uid : String) (items : List HistoryEntry)
    (h : ∀ e ∈ items, e.item_uid = some uid →
      ¬(e.result.run_uids ≠ [] ∧ e.result.exit_status = some "completed") ∧
      ¬(e.result.exit_status = some "failed" ∨ e.result.exit_status = some "unknown")) :
    scanEntries uid items = .keepWaiting := by
  induction items with
  | nil => rfl
  | cons a rest ih =>
    have hrest : ∀ e ∈ rest, e.item_uid = some uid →
        ¬(e.result.run_uids ≠ [] ∧ e.result.exit_status = some "completed") ∧
        ¬(e.result.exit_status = some "failed" ∨ e.result.exit_status = some "unknown") := by
      intro e he
      exact h e (List.mem_cons_of_mem a he)
    by_cases ha : a.item_uid = some uid
    · have hna := h a (List.mem_cons_self a rest) ha
      simp only [scanEntries, if_pos ha, if_neg hna.1, if_neg hna.2]
      exact ih hrest
    · simp only [scanEntries, if_neg ha]
      exact ih hrest

/-- When the submitted item has exactly one matching entry in the
history response, the outcome of the for-loop is decided by that entry
alone, by the if-elif chain of the source. -/
theorem scanEntries_of_uniqueMatch (uid : String) (items : List HistoryEntry)
    (e : HistoryEntry) (he : e ∈ items) (huid : e.item_uid = some uid)
    (huniq : ∀ e2 ∈ items, e2.item_uid = some uid → e2 = e) :
    scanEntries uid items =
      (if e.result.run_uids ≠ [] ∧ e.result.exit_status = some "completed" then
        .found (e.result.run_uids.headD "")
      else if e.result.exit_status = some "failed" ∨ e.result.exit_status = some "unknown" then
        .failure (e.result.exit_status.getD "")
      else .keepWaiting) := by
  induction items with
  | nil => exact absurd he (List.not_mem_nil e)
  | cons a rest ih =>
    by_cases ha : a.item_uid = some uid
    · have hae : a = e := huniq a (List.mem_cons_self a rest) ha
      subst hae
      simp only [scanEntries, if_pos ha]
      by_cases h1 : a.result.run_uids ≠ [] ∧ a.result.exit_status = some "completed"
      · simp only [if_pos h1]
      · simp only [if_neg h1]
        by_cases h2 : a.result.exit_status = some "failed" ∨
            a.result.exit_status = some "unknown"
        · simp only [if_pos h2]
        · simp only [if_neg h2]
          refine scanEntries_keepWaiting uid rest ?_
          intro e2 he2 huid2
          have : e2 = a := huniq e2 (List.mem_cons_of_mem a he2) huid2
          subst this
          exact ⟨h1, h2⟩
    · have hea : e ∈ rest := by
        rcases List.mem_cons.mp he with h | h
        · subst h; exact absurd huid ha
        · exact h
      simp only [scanEntries, if_neg ha]
      exact ih hea (fun e2 he2 huid2 => huniq e2 (List.mem_cons_of_mem a he2) huid2)

/-- When the for-loop keeps falling through at every poll, the loop runs
its fuel down and raises TimeoutError, issuing one history fetch per
iteration. -/
theorem waitLoop_timedOut (uid : String) (responses : Nat → List HistoryEntry)
    (h : ∀ i, scanEntries uid (responses i) = .keepWaiting) :
    ∀ fuel i, waitLoop uid responses i fuel = (fuel, .timedOut) := by
  intro fuel
  induction fuel with
  | zero => intro i; rfl
  | succ n ih =>
    intro i
    simp only [waitLoop, h i, ih (i + 1)]

/-- Claim C1: a history response containing an entry for the submitted
item with exit_status "completed" and a nonempty run_uids list makes
_wait_for_completion return the first element of run_uids, with that
single history fetch. -/
theorem wait_returns_first_run_uid
    (uid u : String) (us : List String) (items : List HistoryEntry)
    (e : HistoryEntry) (he : e ∈ items) (huid : e.item_uid = some uid)
    (huniq : ∀ e2 ∈ items, e2.item_uid = some uid → e2 = e)
    (hstat : e.result.exit_status = some "completed")
    (hru : e.result.run_uids = u :: us)
    (responses : Nat → List HistoryEntry) (h0 : responses 0 = items)
    (timeout : Nat) :
    scanEntries uid items = .found u ∧
    wait_for_completion uid responses timeout = (1, .success u) := by
  have hscan : scanEntries uid items = .found u := by
    rw [scanEntries_of_uniqueMatch uid items e he huid huniq]
    rw [if_pos ⟨by rw [hru]; simp, hstat⟩, hru]
    rfl
  refine ⟨hscan, ?_⟩
  simp only [wait_for_completion, waitLoop, h0, hscan]

/-- Concrete history entries used by the witnesses below. -/
def completedEntry : HistoryEntry :=
  ⟨some "item-1", ⟨some "completed", ["run-A", "run-B"]⟩⟩

def failedEntry : HistoryEntry :=
  ⟨some "item-1", ⟨some "failed", []⟩⟩

def abortedEntry : HistoryEntry :=
  ⟨some "item-1", ⟨some "aborted", []⟩⟩

def emptyCompletedEntry : HistoryEntry :=
  ⟨some "item-1", ⟨some "completed", []⟩⟩

theorem wait_returns_first_run_uid_witness :
    completedEntry ∈ [completedEntry] ∧
    scanEntries "item-1" [completedEntry] = .found "run-A" ∧
    wait_for_completion "item-1" (fun _ => [completedEntry]) DEFAULT_TIMEOUT =
      (1, .success "run-A") :=
  ⟨List.mem_singleton.mpr rfl,
    wait_returns_first_run_uid "item-1" "run-A" ["run-B"] [completedEntry]
      completedEntry (List.mem_singleton.mpr rfl) rfl
      (fun e2 he2 _ => List.mem_singleton.mp he2) rfl rfl
      (fun _ => [completedEntry]) rfl DEFAULT_TIMEOUT⟩

/-- Claim C2, counterexample: an entry for the submitted item with exit
status "aborted" does not make _wait_for_completion raise an execution
failure; the for-loop falls through and the loop polls the full default
timeout (301 history fetches) before raising TimeoutError. -/
theorem wait_aborted_not_failure :
    scanEntries "item-1" [abortedEntry] = .keepWaiting ∧
    wait_for_completion "item-1" (fun _ => [abortedEntry]) DEFAULT_TIMEOUT =
      (DEFAULT_TIMEOUT + 1, .timedOut) := by
  constructor
  · rfl
  · exact waitLoop_timedOut "item-1" (fun _ => [abortedEntry]) (fun _ => rfl)
      (DEFAULT_TIMEOUT + 1) 0

/-- Claim C2, amended: when the entry for the submitted item has exit
status "failed" or "unknown" (the two statuses the source treats as
terminal failures; "aborted" is not among them), _wait_for_completion
raises RuntimeError at that very poll, issuing exactly one history fetch
regardless of any further responses. -/
theorem wait_failure_immediate
    (uid s : String) (items : List HistoryEntry)
    (e : HistoryEntry) (he : e ∈ items) (huid : e.item_uid = some uid)
    (huniq : ∀ e2 ∈ items, e2.item_uid = some uid → e2 = e)
    (hstat : e.result.exit_status = some s)
    (hs : s = "failed" ∨ s = "unknown")
    (responses : Nat → List HistoryEntry) (i : Nat) (hi : responses i = items)
    (fuel : Nat) :
    scanEntries uid items = .failure s ∧
    waitLoop uid responses i (fuel + 1) = (1, .execFailure s) := by
  have hne : e.result.exit_status ≠ some "completed" := by
    rw [hstat]
    rcases hs with h | h <;> subst h <;> simp
  have hscan : scanEntries uid items = .failure s := by
    rw [scanEntries_of_uniqueMatch uid items e he huid huniq]
    rw [if_neg (fun hc => hne hc.2)]
    rw [if_pos (by rcases hs with h | h <;> subst h <;> [left; right] <;> exact hstat)]
    rw [hstat]
    rfl
  refine ⟨hscan, ?_⟩
  simp only [waitLoop, hi, hscan]

theorem wait_failure_immediate_witness :
    failedEntry ∈ [failedEntry] ∧
    scanEntries "item-1" [failedEntry] = .failure "failed" ∧
    waitLoop "item-1" (fun _ => [failedEntry]) 0 (DEFAULT_TIMEOUT + 1) =
      (1, .execFailure "failed") :=
  ⟨List.mem_singleton.mpr rfl,
    wait_failure_immediate "item-1" "failed" [failedEntry] failedEntry
      (List.mem_singleton.mpr rfl) rfl
      (fun e2 he2 _ => List.mem_singleton.mp he2) rfl (Or.inl rfl)
      (fun _ => [failedEntry]) 0 rfl DEFAULT_TIMEOUT⟩

/-- Claim C5: when no terminal entry for the submitted item (completed
with run uids, failed, aborted, or unknown) ever appears in any history
response, _wait_for_completion raises TimeoutError after the bounded
wait, having issued exactly timeout + 1 history fetches (one per second)
rather than polling forever. -/
theorem wait_timeout_when_no_terminal
    (uid : String) (responses : Nat → List HistoryEntry)
    (h : ∀ i, ∀ e ∈ responses i, e.item_uid = some uid →
      ¬(e.result.run_uids ≠ [] ∧ e.result.exit_status = some "completed") ∧
      e.result.exit_status ≠ some "failed" ∧
      e.result.exit_status ≠ some "aborted" ∧
      e.result.exit_status ≠ some "unknown")
    (timeout : Nat) :
    wait_for_completion uid responses timeout = (timeout + 1, .timedOut) := by
  have hscan : ∀ i, scanEntries uid (responses i) = .keepWaiting := by
    intro i
    refine scanEntries_keepWaiting uid (responses i) ?_
    intro e he huid
    obtain ⟨h1, h2, _, h4⟩ := h i e he huid
    exact ⟨h1, fun hc => hc.elim h2 h4⟩
  exact waitLoop_timedOut uid responses hscan (timeout + 1) 0

theorem wait_timeout_when_no_terminal_witness :
    wait_for_completion "item-1" (fun _ => []) DEFAULT_TIMEOUT =
      (DEFAULT_TIMEOUT + 1, .timedOut) :=
  wait_timeout_when_no_terminal "item-1" (fun _ => [])
    (fun _ e he => absurd he (List.not_mem_nil e)) DEFAULT_TIMEOUT

/-- Claim C9: an entry for the submitted item with exit_status
"completed" but an empty run_uids list is not treated as terminal: the
for-loop neither returns nor raises for it, and if such responses keep
arriving the loop polls until the bounded wait elapses and raises
TimeoutError. -/
theorem wait_completed_empty_run_uids_keeps_polling
    (uid : String) (items : List HistoryEntry)
    (e : HistoryEntry) (he : e ∈ items) (huid : e.item_uid = some uid)
    (huniq : ∀ e2 ∈ items, e2.item_uid = some uid → e2 = e)
    (hstat : e.result.exit_status = some "completed")
    (hru : e.result.run_uids = []) :
    scanEntries uid items = .keepWaiting ∧
    wait_for_completion uid (fun _ => items) DEFAULT_TIMEOUT =
      (DEFAULT_TIMEOUT + 1, .timedOut) := by
  have hscan : scanEntries uid items = .keepWaiting := by
    rw [scanEntries_of_uniqueMatch uid items e he huid huniq]
    rw [if_neg (fun hc => hc.1 hru)]
    rw [if_neg (by rw [hstat]; rintro (h | h) <;> simp at h)]
  exact ⟨hscan,
    waitLoop_timedOut uid (fun _ => items) (fun _ => hscan) (DEFAULT_TIMEOUT + 1) 0⟩

theorem wait_completed_empty_run_uids_keeps_polling_witness :
    emptyCompletedEntry ∈ [emptyCompletedEntry] ∧
    scanEntries "item-1" [emptyCompletedEntry] = .keepWaiting ∧
    wait_for_completion "item-1" (fun _ => [emptyCompletedEntry]) DEFAULT_TIMEOUT =
      (DEFAULT_TIMEOUT + 1, .timedOut) :=
  ⟨List.mem_singleton.mpr rfl,
    wait_completed_empty_run_uids_keeps_polling "item-1" [emptyCompletedEntry]
      emptyCompletedEntry (List.mem_singleton.mpr rfl) rfl
      (fun e2 he2 _ => List.mem_singleton.mp he2) rfl rfl⟩

/-
Data retrieval client, BL531DataAPI. Array payloads are abstracted to
integer lists; nothing below depends on their contents.
-/

/-- Payload of one named array of the primary stream. -/
abbrev ArrayData := List Int

/-- Value stored in a RunData bucket: either the availability marker
string stored for "det_image" instead of its contents, or loaded array
contents. -/
inductive BucketValue where
  | marker (s : String)
  | data (a : ArrayData)
deriving DecidableEq, Repr

/-- Organized data of one run, as in the RunData dataclass: one mapping
per category plus free-form metadata. Python dict fields become
association lists with dict-style insertion (overwrite on an existing
key, append otherwise). -/
structure RunData where
  run_uid : String
  metadata : List (String × String)
  detectors : List (String × BucketValue)
  motors : List (String × BucketValue)
  images : List (String × BucketValue)
  other : List (String × BucketValue)
deriving DecidableEq, Repr

/-- The four categories of RunData. -/
inductive Bucket where
  | detectors
  | motors
  | images
  | other
deriving DecidableEq, Repr

/-- Bucket field of a RunData selected by category. -/
def getBucket (rd : RunData) : Bucket → List (String × BucketValue)
  | .detectors => rd.detectors
  | .motors => rd.motors
  | .images => rd.images
  | .other => rd.other

/-- Python dict assignment d[k] = v on an association list: replace the
binding when the key is present, append otherwise. -/
def dictInsert (m : List (String × BucketValue)) (k : String) (v : BucketValue) :
    List (String × BucketValue) :=
  if m.any (fun p => p.1 == k) then
    m.map (fun p => if p.1 = k then (k, v) else p)
  else
    m ++ [(k, v)]

/-- Keys of an association list. -/
def keysOf (m : List (String × BucketValue)) : List String :=
  m.map Prod.fst

/-- Test whether the pattern list of characters occurs at the start of
the text list. -/
def charsStartWith : List Char → List Char → Bool
  | [], _ => true
  | _ :: _, [] => false
  | p :: ps, c :: cs => p == c && charsStartWith ps cs

/-- Test whether the pattern occurs anywhere in the text, as the Python
membership test sub in s on strings. -/
def charsContain (pat : List Char) : List Char → Bool
  | [] => charsStartWith pat []
  | c :: cs => charsStartWith pat (c :: cs) || charsContain pat cs

/-- String containment: strContains s sub is the Python expression
sub in s. -/
def strContains (s sub : String) : Bool :=
  charsContain sub.toList s.toList

/-- Python str.lower() of a key. All keys and patterns involved are
ASCII, where lowering is the per-character ASCII mapping; this is
modelled over the character list of the string (String.toLower of core
Lean is the same mapping but is not kernel-reducible). -/
def strLower (s : String) : String :=
  String.mk (s.data.map Char.toLower)

/-- Substrings that route a key to the detectors bucket. -/
def DETECTOR_PATTERNS : List String := ["diode", "det", "counter", "scaler"]

/-- Substrings that route a key to the motors bucket. -/
def MOTOR_PATTERNS : List String := ["motor", "hexapod", "angle", "mono", "_readback"]

/-- Category selected by the if-elif chain of _categorize_data for a
given key. -/
def categorize (key : String) : Bucket :=
  let key_lower := strLower key
  if strContains key_lower "image" = true then .images
  else if DETECTOR_PATTERNS.any (fun p => strContains key_lower p) = true then .detectors
  else if MOTOR_PATTERNS.any (fun p => strContains key_lower p) = true then .motors
  else .other

/-- The method _categorize_data: store the loaded array under its key in
the bucket selected by the key-name patterns, first match winning. -/
def categorize_data (key : String) (data : ArrayData) (rd : RunData) : RunData :=
  let key_lower := strLower key
  if strContains key_lower "image" = true then
    { rd with images := dictInsert rd.images key (.data data) }
  else if DETECTOR_PATTERNS.any (fun p => strContains key_lower p) = true then
    { rd with detectors := dictInsert rd.detectors key (.data data) }
  else if MOTOR_PATTERNS.any (fun p => strContains key_lower p) = true then
    { rd with motors := dictInsert rd.motors key (.data data) }
  else
    { rd with other := dictInsert rd.other key (.data data) }

/-- Outcome of reading one named array of the primary stream:
primary[key].read() either yields the array or raises. -/
inductive ReadResult where
  | ok (data : ArrayData)
  | err (msg : String)
deriving DecidableEq, Repr

/-- Primary stream of a run: its keys, in enumeration order, each with
the outcome its read() call would produce. -/
abbrev Stream := List (String × ReadResult)

/-- Marker string stored for the deferred image key. -/
def availMarker : String := "Available (not loaded - use get_image() to load)"

/-- Body of the for-loop of get_run_data for one key. The state carries
the RunData under construction together with the list of keys on which
read() has been attempted. The key det_image is marked available without
any read; every other key is read, a failed read being logged and
skipped. -/
def processKey (st : RunData × List String) (key : String) (res : ReadResult) :
    RunData × List String :=
  if key = "det_image" then
    ({ st.1 with images := dictInsert st.1.images key (.marker availMarker) }, st.2)
  else
    match res with
    | .ok data => (categorize_data key data st.1, st.2 ++ [key])
    | .err _ => (st.1, st.2 ++ [key])

/-- The method get_run_data in real mode: start from an empty RunData
with the metadata of the primary stream, then fold the for-loop body
over the enumerated keys. Returns the RunData together with the list of
keys actually read. -/
def get_run_data (run_uid : String) (metadata : List (String × String))
    (primary : Stream) : RunData × List String :=
  primary.foldl (fun st kr => processKey st kr.1 kr.2)
    (⟨run_uid, metadata, [], [], [], []⟩, [])

/-- The method get_image in real mode: read the one requested key on
demand. Returns the list of keys read by the call together with the
outcome. -/
def get_image (primary : Stream) (image_key : String) :
    List String × Option ArrayData :=
  ([image_key],
    match primary.lookup image_key with
    | some (.ok d) => some d
    | some (.err _) => none
    | none => none)

/-- Bucket, if any, where get_run_data records a stream key with a given
read outcome: det_image always lands in images as a marker, a failed
read lands nowhere, a successful read lands in the category of the key. -/
def targetBucket (key : String) (r : ReadResult) : Option Bucket :=
  if key = "det_image" then some .images
  else
    match r with
    | .ok _ => some (categorize key)
    | .err _ => none

/-- Replacing the binding of one key leaves the key list unchanged. -/
theorem keysOf_map_update (m : List (String × BucketValue)) (k : String)
    (v : BucketValue) :
    keysOf (m.map (fun p => if p.1 = k then (k, v) else p)) = keysOf m := by
  induction m with
  | nil => rfl
  | cons a t ih =>
    by_cases h : a.1 = k
    · simp only [keysOf, List.map_cons, if_pos h] at ih ⊢
      rw [ih, h]
    · simp only [keysOf, List.map_cons, if_neg h] at ih ⊢
      rw [ih]

/-- Membership in the key list after a dict assignment. -/
theorem mem_keysOf_dictInsert (m : List (String × BucketValue)) (k : String)
    (v : BucketValue) (k' : String) :
    k' ∈ keysOf (dictInsert m k v) ↔ k' ∈ keysOf m ∨ k' = k := by
  unfold dictInsert
  by_cases hany : m.any (fun p => p.1 == k) = true
  · rw [if_pos hany, keysOf_map_update]
    have hk : k ∈ keysOf m := by
      obtain ⟨p, hp, hpk⟩ := List.any_eq_true.mp hany
      have hpe : p.1 = k := by simpa using hpk
      exact hpe ▸ List.mem_map_of_mem Prod.fst hp
    constructor
    · exact Or.inl
    · rintro (h | h)
      · exact h
      · exact h ▸ hk
  · rw [if_neg hany]
    simp [keysOf]

/-- A dict assignment makes the assigned pair a member. -/
theorem dictInsert_mem_self (m : List (String × BucketValue)) (k : String)
    (v : BucketValue) : (k, v) ∈ dictInsert m k v := by
  unfold dictInsert
  by_cases hany : m.any (fun p => p.1 == k) = true
  · rw [if_pos hany]
    obtain ⟨p, hp, hpk⟩ := List.any_eq_true.mp hany
    have hpe : p.1 = k := by simpa using hpk
    exact List.mem_map.mpr ⟨p, hp, by simp [hpe]⟩
  · rw [if_neg hany]
    exact List.mem_append_right _ (List.mem_singleton.mpr rfl)

/-- A dict assignment to a different key preserves membership. -/
theorem dictInsert_mem_of_ne (m : List (String × BucketValue)) (k k0 : String)
    (v v0 : BucketValue) (h : (k0, v0) ∈ m) (hne : k0 ≠ k) :
    (k0, v0) ∈ dictInsert m k v := by
  unfold dictInsert
  by_cases hany : m.any (fun p => p.1 == k) = true
  · rw [if_pos hany]
    exact List.mem_map.mpr ⟨(k0, v0), h, by simp [hne]⟩
  · rw [if_neg hany]
    exact List.mem_append_left _ h

/-- The method _categorize_data updates exactly the bucket selected by
categorize, by a dict assignment of the loaded data. -/
theorem getBucket_categorize_data (key : String) (d : ArrayData) (rd : RunData)
    (b : Bucket) :
    getBucket (categorize_data key d rd) b =
      if categorize key = b then dictInsert (getBucket rd b) key (.data d)
      else getBucket rd b := by
  unfold categorize_data categorize
  by_cases h1 : strContains (strLower key) "image" = true
  · simp only [if_pos h1]
    cases b <;> simp [getBucket]
  · simp only [if_neg h1]
    by_cases h2 : DETECTOR_PATTERNS.any (fun p => strContains (strLower key) p) = true
    · simp only [if_pos h2]
      cases b <;> simp [getBucket]
    · simp only [if_neg h2]
      by_cases h3 : MOTOR_PATTERNS.any (fun p => strContains (strLower key) p) = true
      · simp only [if_pos h3]
        cases b <;> simp [getBucket]
      · simp only [if_neg h3]
        cases b <;> simp [getBucket]

/-- Membership in a bucket key list after one pass of the loop body. -/
theorem mem_getBucket_processKey (st : RunData × List String) (k : String)
    (r : ReadResult) (b : Bucket) (k' : String) :
    k' ∈ keysOf (getBucket (processKey st k r).1 b) ↔
      k' ∈ keysOf (getBucket st.1 b) ∨ (k' = k ∧ targetBucket k r = some b) := by
  unfold processKey targetBucket
  by_cases hk : k = "det_image"
  · rw [if_pos hk, if_pos hk]
    cases b <;> simp [getBucket, mem_keysOf_dictInsert]
  · rw [if_neg hk, if_neg hk]
    cases r with
    | ok d =>
      simp only [getBucket_categorize_data]
      by_cases hc : categorize k = b
      · rw [if_pos hc]
        rw [mem_keysOf_dictInsert]
        simp [hc]
      · rw [if_neg hc]
        simp [hc]
    | err m => simp

/-- Membership in a bucket key list after the whole get_run_data fold,
for an arbitrary starting state. -/
theorem mem_getBucket_foldl (primary : Stream) :
    ∀ (st : RunData × List String) (b : Bucket) (k' : String),
    k' ∈ keysOf (getBucket
        (primary.foldl (fun st kr => processKey st kr.1 kr.2) st).1 b) ↔
      k' ∈ keysOf (getBucket st.1 b) ∨
        ∃ r, (k', r) ∈ primary ∧ targetBucket k' r = some b := by
  induction primary with
  | nil => simp
  | cons a rest ih =>
    intro st b k'
    rw [List.foldl_cons, ih, mem_getBucket_processKey]
    constructor
    · rintro ((h | ⟨h1, h2⟩) | ⟨r, hr, ht⟩)
      · exact Or.inl h
      · subst h1
        exact Or.inr ⟨a.2, List.mem_cons.mpr (Or.inl rfl), h2⟩
      · exact Or.inr ⟨r, List.mem_cons_of_mem a hr, ht⟩
    · rintro (h | ⟨r, hr, ht⟩)
      · exact Or.inl (Or.inl h)
      · rcases List.mem_cons.mp hr with h | h
        · have hk1 : k' = a.1 := congrArg Prod.fst h
          have hr1 : r = a.2 := congrArg Prod.snd h
          exact Or.inl (Or.inr ⟨hk1, by rw [← hk1, ← hr1]; exact ht⟩)
        · exact Or.inr ⟨r, h, ht⟩

/-- Membership in the list of read keys after the whole fold: exactly
the stream keys other than det_image are read. -/
theorem mem_reads_foldl (primary : Stream) :
    ∀ (st : RunData × List String) (k' : String),
    k' ∈ (primary.foldl (fun st kr => processKey st kr.1 kr.2) st).2 ↔
      k' ∈ st.2 ∨ ∃ r, (k', r) ∈ primary ∧ k' ≠ "det_image" := by
  induction primary with
  | nil => simp
  | cons a rest ih =>
    intro st k'
    rw [List.foldl_cons, ih]
    have hstep : k' ∈ (processKey st a.1 a.2).2 ↔
        k' ∈ st.2 ∨ (k' = a.1 ∧ k' ≠ "det_image") := by
      unfold processKey
      by_cases hk : a.1 = "det_image"
      · rw [if_pos hk]
        constructor
        · exact Or.inl
        · rintro (h | ⟨h1, h2⟩)
          · exact h
          · exact absurd (h1.trans hk) h2
      · rw [if_neg hk]
        cases a.2 with
        | ok d =>
          simp only [List.mem_append, List.mem_singleton]
          constructor
          · rintro (h | h)
            · exact Or.inl h
            · exact Or.inr ⟨h, h ▸ hk⟩
          · rintro (h | ⟨h1, _⟩)
            · exact Or.inl h
            · exact Or.inr h1
        | err m =>
          simp only [List.mem_append, List.mem_singleton]
          constructor
          · rintro (h | h)
            · exact Or.inl h
            · exact Or.inr ⟨h, h ▸ hk⟩
          · rintro (h | ⟨h1, _⟩)
            · exact Or.inl h
            · exact Or.inr h1
    rw [hstep]
    constructor
    · rintro ((h | ⟨h1, h2⟩) | ⟨r, hr, hne⟩)
      · exact Or.inl h
      · exact Or.inr ⟨a.2, List.mem_cons.mpr (Or.inl (by rw [h1])), h2⟩
      · exact Or.inr ⟨r, List.mem_cons_of_mem a hr, hne⟩
    · rintro (h | ⟨r, hr, hne⟩)
      · exact Or.inl (Or.inl h)
      · rcases List.mem_cons.mp hr with h | h
        · exact Or.inl (Or.inr ⟨congrArg Prod.fst h, hne⟩)
        · exact Or.inr ⟨r, h, hne⟩

/-- The bucket a key lands in is determined by the key alone, whatever
read outcomes accompany it. -/
theorem targetBucket_deterministic (k : String) (r1 r2 : ReadResult)
    (b1 b2 : Bucket) (h1 : targetBucket k r1 = some b1)
    (h2 : targetBucket k r2 = some b2) : b1 = b2 := by
  unfold targetBucket at h1 h2
  by_cases hk : k = "det_image"
  · rw [if_pos hk] at h1 h2
    rw [← Option.some.inj h1, ← Option.some.inj h2]
  · rw [if_neg hk] at h1 h2
    cases r1 with
    | ok d1 =>
      cases r2 with
      | ok d2 => rw [← Option.some.inj h1, ← Option.some.inj h2]
      | err m2 => exact absurd h2 (by simp)
    | err m1 => exact absurd h1 (by simp)

/-- Claim C3: the categorization rules apply in order with first match
winning: an image key goes to images; otherwise a detector-pattern key
goes to detectors; otherwise a motor-pattern key goes to motors;
otherwise the key goes to other. Moreover _categorize_data records the
key in exactly the bucket so selected, and the four sample keys land as
the specification states. -/
theorem categorize_rules (key : String) :
    (strContains (strLower key) "image" = true → categorize key = .images) ∧
    (strContains (strLower key) "image" = false →
      DETECTOR_PATTERNS.any (fun p => strContains (strLower key) p) = true →
      categorize key = .detectors) ∧
    (strContains (strLower key) "image" = false →
      DETECTOR_PATTERNS.any (fun p => strContains (strLower key) p) = false →
      MOTOR_PATTERNS.any (fun p => strContains (strLower key) p) = true →
      categorize key = .motors) ∧
    (strContains (strLower key) "image" = false →
      DETECTOR_PATTERNS.any (fun p => strContains (strLower key) p) = false →
      MOTOR_PATTERNS.any (fun p => strContains (strLower key) p) = false →
      categorize key = .other) ∧
    (∀ (d : ArrayData) (rd : RunData),
      key ∈ keysOf (getBucket (categorize_data key d rd) (categorize key))) ∧
    categorize "det_image" = .images ∧
    categorize "diode" = .detectors ∧
    categorize "hexapod_motor_Tz_mm_readback" = .motors ∧
    categorize "sample_temp" = .other := by
  refine ⟨?_, ?_, ?_, ?_, ?_, ?_, ?_, ?_, ?_⟩
  · intro h1; simp [categorize, h1]
  · intro h1 h2; simp [categorize, h1, h2]
  · intro h1 h2 h3; simp [categorize, h1, h2, h3]
  · intro h1 h2 h3; simp [categorize, h1, h2, h3]
  · intro d rd
    rw [getBucket_categorize_data, if_pos rfl, mem_keysOf_dictInsert]
    exact Or.inr rfl
  · rfl
  · rfl
  · rfl
  · rfl

theorem categorize_rules_witness :
    strContains (strLower "det_image") "image" = true ∧
    categorize "det_image" = .images ∧
    categorize "sample_temp" = .other :=
  ⟨by rfl, (categorize_rules "det_image").1 (by rfl),
    (categorize_rules "sample_temp").2.2.2.2.2.2.2.2⟩

/-- Claim C10: every stream key that is successfully read, and the
deferred key det_image when present, appears in some bucket of the
resulting RunData, and the four buckets are pairwise disjoint over the
keys of one get_run_data call. -/
theorem run_data_buckets_partition (uid : String) (md : List (String × String))
    (primary : Stream) (k : String) :
    ((∃ d, (k, .ok d) ∈ primary) ∨ (k = "det_image" ∧ ∃ r, (k, r) ∈ primary) →
      ∃ b, k ∈ keysOf (getBucket (get_run_data uid md primary).1 b)) ∧
    (∀ b1 b2, b1 ≠ b2 →
      ¬(k ∈ keysOf (getBucket (get_run_data uid md primary).1 b1) ∧
        k ∈ keysOf (getBucket (get_run_data uid md primary).1 b2))) := by
  have hinit : ∀ b, keysOf (getBucket (⟨uid, md, [], [], [], []⟩ : RunData) b) = [] := by
    intro b; cases b <;> rfl
  constructor
  · rintro (⟨d, hd⟩ | ⟨hk, r, hr⟩)
    · by_cases hdet : k = "det_image"
      · refine ⟨.images, ?_⟩
        unfold get_run_data
        rw [mem_getBucket_foldl]
        exact Or.inr ⟨.ok d, hd, by simp [targetBucket, hdet]⟩
      · refine ⟨categorize k, ?_⟩
        unfold get_run_data
        rw [mem_getBucket_foldl]
        exact Or.inr ⟨.ok d, hd, by simp [targetBucket, hdet]⟩
    · refine ⟨.images, ?_⟩
      unfold get_run_data
      rw [mem_getBucket_foldl]
      exact Or.inr ⟨r, hr, by simp [targetBucket, hk]⟩
  · intro b1 b2 hne h
    obtain ⟨h1, h2⟩ := h
    unfold get_run_data at h1 h2
    rw [mem_getBucket_foldl] at h1 h2
    rcases h1 with h1 | ⟨r1, hm1, ht1⟩
    · simp [hinit] at h1
    rcases h2 with h2 | ⟨r2, hm2, ht2⟩
    · simp [hinit] at h2
    exact hne (targetBucket_deterministic k r1 r2 b1 b2 ht1 ht2)

/-- Example stream with one detector key and the deferred image key. -/
def demoStream : Stream := [("diode", .ok [1]), ("det_image", .err "skip")]

theorem run_data_buckets_partition_witness :
    (∃ b, "diode" ∈ keysOf (getBucket (get_run_data "r" [] demoStream).1 b)) ∧
    ¬("diode" ∈ keysOf (getBucket (get_run_data "r" [] demoStream).1 .detectors) ∧
      "diode" ∈ keysOf (getBucket (get_run_data "r" [] demoStream).1 .motors)) :=
  ⟨(run_data_buckets_partition "r" [] demoStream "diode").1
      (Or.inl ⟨[1], List.mem_cons.mpr (Or.inl rfl)⟩),
    (run_data_buckets_partition "r" [] demoStream "diode").2 .detectors .motors
      (by decide)⟩

/-- Claim C6, counterexample: a key containing "image" other than the
literal det_image is read eagerly by get_run_data and its contents, not
an availability marker, are stored in the images bucket. -/
theorem image_key_loaded_eagerly :
    (get_run_data "run-1" [] [("sample_image", .ok [7])]).1.images =
      [("sample_image", .data [7])] ∧
    (get_run_data "run-1" [] [("sample_image", .ok [7])]).2 = ["sample_image"] := by
  constructor <;> rfl

/-- One pass of the loop body preserves the deferred marker binding of
det_image in the images bucket. -/
theorem marker_mem_processKey (st : RunData × List String) (k : String)
    (r : ReadResult)
    (h : ("det_image", BucketValue.marker availMarker) ∈ st.1.images) :
    ("det_image", BucketValue.marker availMarker) ∈ (processKey st k r).1.images := by
  unfold processKey
  by_cases hk : k = "det_image"
  · rw [if_pos hk]
    subst hk
    exact dictInsert_mem_self _ _ _
  · rw [if_neg hk]
    cases r with
    | ok d =>
      show ("det_image", BucketValue.marker availMarker) ∈
        (categorize_data k d st.1).images
      by_cases hc : categorize k = .images
      · have heq : (categorize_data k d st.1).images =
            dictInsert st.1.images k (.data d) := by
          have h2 := getBucket_categorize_data k d st.1 .images
          rw [if_pos hc] at h2
          exact h2
        rw [heq]
        exact dictInsert_mem_of_ne _ _ _ _ _ h (fun hh => hk hh.symm)
      · have heq : (categorize_data k d st.1).images = st.1.images := by
          have h2 := getBucket_categorize_data k d st.1 .images
          rw [if_neg hc] at h2
          exact h2
        rw [heq]
        exact h
    | err m => exact h

/-- The whole fold preserves the deferred marker binding of det_image. -/
theorem marker_mem_foldl (primary : Stream) :
    ∀ st : RunData × List String,
    ("det_image", BucketValue.marker availMarker) ∈ st.1.images →
    ("det_image", BucketValue.marker availMarker) ∈
      (primary.foldl (fun st kr => processKey st kr.1 kr.2) st).1.images := by
  induction primary with
  | nil => intro st h; exact h
  | cons a rest ih =>
    intro st h
    rw [List.foldl_cons]
    exact ih _ (marker_mem_processKey st a.1 a.2 h)

/-- Claim C6, amended: get_run_data defers exactly the literal key
det_image, storing the availability marker for it and never attempting
its read, while every other stream key, image-named or not, has its read
attempted eagerly; image contents are fetched only by the explicit
get_image call, which reads exactly the requested key. -/
theorem det_image_deferred_others_eager (uid : String)
    (md : List (String × String)) (primary : Stream) :
    (∀ r, ("det_image", r) ∈ primary →
      ("det_image", BucketValue.marker availMarker) ∈
        (get_run_data uid md primary).1.images ∧
      "det_image" ∉ (get_run_data uid md primary).2) ∧
    (∀ k r, (k, r) ∈ primary → k ≠ "det_image" →
      k ∈ (get_run_data uid md primary).2) ∧
    (∀ image_key, (get_image primary image_key).1 = [image_key]) := by
  refine ⟨?_, ?_, fun _ => rfl⟩
  · intro r hmem
    constructor
    · obtain ⟨s, t, hst⟩ := List.append_of_mem hmem
      subst hst
      unfold get_run_data
      rw [List.foldl_append, List.foldl_cons]
      apply marker_mem_foldl
      show ("det_image", BucketValue.marker availMarker) ∈
        (processKey _ "det_image" r).1.images
      unfold processKey
      rw [if_pos rfl]
      exact dictInsert_mem_self _ _ _
    · intro hmem2
      unfold get_run_data at hmem2
      rw [mem_reads_foldl] at hmem2
      rcases hmem2 with h | ⟨r2, _, hne⟩
      · exact List.not_mem_nil _ h
      · exact hne rfl
  · intro k r hmem hk
    unfold get_run_data
    rw [mem_reads_foldl]
    exact Or.inr ⟨r, hmem, hk⟩

/-- Example stream with the deferred image key failing to read and one
detector key. -/
def demoStream2 : Stream := [("det_image", .err "x"), ("diode", .ok [1])]

theorem det_image_deferred_others_eager_witness :
    ("det_image", BucketValue.marker availMarker) ∈
      (get_run_data "r" [] demoStream2).1.images ∧
    "det_image" ∉ (get_run_data "r" [] demoStream2).2 ∧
    "diode" ∈ (get_run_data "r" [] demoStream2).2 :=
  ⟨((det_image_deferred_others_eager "r" [] demoStream2).1 (.err "x")
      (List.mem_cons.mpr (Or.inl rfl))).1,
    ((det_image_deferred_others_eager "r" [] demoStream2).1 (.err "x")
      (List.mem_cons.mpr (Or.inl rfl))).2,
    (det_image_deferred_others_eager "r" [] demoStream2).2.1 "diode" (.ok [1])
      (by decide) (by decide)⟩

/-- The RunData component of the fold ignores the read-keys component of
the starting state. -/
theorem fst_foldl_congr (primary : Stream) :
    ∀ st st' : RunData × List String, st.1 = st'.1 →
    (primary.foldl (fun st kr => processKey st kr.1 kr.2) st).1 =
      (primary.foldl (fun st kr => processKey st kr.1 kr.2) st').1 := by
  induction primary with
  | nil => intro st st' h; exact h
  | cons a rest ih =>
    intro st st' h
    rw [List.foldl_cons, List.foldl_cons]
    apply ih
    unfold processKey
    by_cases hk : a.1 = "det_image"
    · rw [if_pos hk, if_pos hk]
      simp [h]
    · rw [if_neg hk, if_neg hk]
      cases a.2 <;> simp [h]

/-- Claim C8: a failing read of an individual non-deferred key is
skipped: the RunData produced by get_run_data is the one produced on the
same stream with the failing key removed, so the categorization of all
other keys survives. -/
theorem read_failure_skipped (uid : String) (md : List (String × String))
    (s1 s2 : Stream) (k msg : String) (hk : k ≠ "det_image") :
    (get_run_data uid md (s1 ++ (k, .err msg) :: s2)).1 =
      (get_run_data uid md (s1 ++ s2)).1 := by
  unfold get_run_data
  rw [List.foldl_append, List.foldl_append, List.foldl_cons]
  apply fst_foldl_congr
  show (processKey _ k (.err msg)).1 = _
  unfold processKey
  rw [if_neg hk]

theorem read_failure_skipped_witness :
    "bad" ≠ "det_image" ∧
    (get_run_data "r" []
        ([("diode", .ok [1])] ++ ("bad", .err "m") :: [("gi_angle", .ok [2])])).1 =
      (get_run_data "r" [] ([("diode", .ok [1])] ++ [("gi_angle", .ok [2])])).1 :=
  ⟨by decide,
    read_failure_skipped "r" [] [("diode", .ok [1])] [("gi_angle", .ok [2])]
      "bad" "m" (by decide)⟩

/-
Plan submission client, BL531API: allow-lists, mock mode, and the
submit-then-wait pipeline with its network calls made explicit.
-/

/-- Static allow-list BL531_MOTORS. -/
def BL531_MOTORS : List String :=
  ["hexapod_motor_Ry", "hexapod_motor_Rz", "hexapod_motor_Ty",
   "hexapod_motor_Tz", "gi_angle", "mono_energy"]

/-- Static allow-list BL531_DETECTORS. -/
def BL531_DETECTORS : List String := ["diode", "det"]

/-- The PlanResult dataclass. The timestamp datetime.now() is an
abstract clock value supplied by the caller of the model. -/
structure PlanResult where
  run_uid : String
  plan_name : String
  timestamp : Nat
deriving DecidableEq, Repr

/-- Hexadecimal digits of a natural number, most significant first,
left-padded with zeros to the requested width: the format "%032x"
applied by str on a uuid yields these digits for width 32. -/
def natToHexDigits : Nat → Nat → List Char
  | 0, _ => []
  | w + 1, n => natToHexDigits w (n / 16) ++ [Nat.digitChar (n % 16)]

/-- The 128-bit integer held by uuid.uuid4(): 128 random bits with the
RFC 4122 variant bits (10 at bit positions 62 and 63 of the high half,
that is 0x8000 shifted left 48) and the version nibble 4 (at positions
76 to 79) forced, as the uuid module does. -/
def uuidInt (r : Nat) : Nat :=
  let mask := 2 ^ 128 - 1
  let i0 := r % 2 ^ 128
  let i1 := (i0 &&& (mask ^^^ (0xc000 <<< 48))) ||| (0x8000 <<< 48)
  (i1 &&& (mask ^^^ (0xf000 <<< 64))) ||| (4 <<< 76)

/-- String form str(uuid.uuid4()) for the given random bits: the 32
lowercase hex digits of the integer, with hyphens after digits 8, 12,
16 and 20. -/
def uuid4String (r : Nat) : String :=
  let h := natToHexDigits 32 (uuidInt r)
  String.mk (h.take 8 ++ '-' :: ((h.drop 8).take 4 ++ '-' :: ((h.drop 12).take 4
    ++ '-' :: ((h.drop 16).take 4 ++ '-' :: h.drop 20))))

/-- Characters the %x format can produce: a decimal digit or one of the
lowercase letters a to f. -/
def isHexDigitChar (c : Char) : Bool :=
  ('0' ≤ c && c ≤ '9') || ('a' ≤ c && c ≤ 'f')

/-- Syntactic shape of a UUID string: five lowercase hex groups of
lengths 8, 4, 4, 4 and 12 separated by hyphens. -/
def IsValidUUID (s : String) : Prop :=
  ∃ a b c d e : List Char,
    s.data = a ++ '-' :: (b ++ '-' :: (c ++ '-' :: (d ++ '-' :: e))) ∧
    a.length = 8 ∧ b.length = 4 ∧ c.length = 4 ∧ d.length = 4 ∧ e.length = 12 ∧
    (a ++ b ++ c ++ d ++ e).all isHexDigitChar = true

theorem natToHexDigits_length (w : Nat) : ∀ n, (natToHexDigits w n).length = w := by
  induction w with
  | zero => intro n; rfl
  | succ m ih =>
    intro n
    simp [natToHexDigits, ih]

theorem natToHexDigits_hex (w : Nat) :
    ∀ n, ∀ c ∈ natToHexDigits w n, isHexDigitChar c = true := by
  have h16 : ∀ m : Fin 16, isHexDigitChar (Nat.digitChar m.val) = true := by decide
  induction w with
  | zero => intro n c hc; exact absurd hc (List.not_mem_nil c)
  | succ m ih =>
    intro n c hc
    rcases List.mem_append.mp hc with h | h
    · exact ih (n / 16) c h
    · rw [List.mem_singleton.mp h]
      exact h16 ⟨n % 16, Nat.mod_lt n (by omega)⟩

/-- Every string uuid4String produces is syntactically a valid UUID. -/
theorem uuid4String_valid (r : Nat) : IsValidUUID (uuid4String r) := by
  have hlen := natToHexDigits_length 32 (uuidInt r)
  have hhex := natToHexDigits_hex 32 (uuidInt r)
  refine ⟨(natToHexDigits 32 (uuidInt r)).take 8,
    ((natToHexDigits 32 (uuidInt r)).drop 8).take 4,
    ((natToHexDigits 32 (uuidInt r)).drop 12).take 4,
    ((natToHexDigits 32 (uuidInt r)).drop 16).take 4,
    (natToHexDigits 32 (uuidInt r)).drop 20,
    rfl, ?_, ?_, ?_, ?_, ?_, ?_⟩
  · simp [List.length_take, hlen]
  · simp [List.length_take, List.length_drop, hlen]
  · simp [List.length_take, List.length_drop, hlen]
  · simp [List.length_take, List.length_drop, hlen]
  · simp [List.length_drop, hlen]
  · rw [List.all_eq_true]
    intro c hc
    apply hhex
    rcases List.mem_append.mp hc with h | h
    · rcases List.mem_append.mp h with h | h
      · rcases List.mem_append.mp h with h | h
        · rcases List.mem_append.mp h with h | h
          · exact List.take_subset _ _ h
          · exact (List.drop_subset _ _) (List.take_subset _ _ h)
        · exact (List.drop_subset _ _) (List.take_subset _ _ h)
      · exact (List.drop_subset _ _) (List.take_subset _ _ h)
    · exact List.drop_subset _ _ h

/-- The method _validate_detectors: ValueError exactly when the set
difference set(detectors) - BL531_DETECTORS is nonempty, so validation
passes exactly when every requested detector is in the allow-list. -/
def validate_detectors (detectors : List String) : Bool :=
  detectors.all (fun d => BL531_DETECTORS.contains d)

/-- The method _validate_motor: the motor must be in the allow-list. -/
def validate_motor (motor : String) : Bool :=
  BL531_MOTORS.contains motor

/-- The method _mock_plan_execution: fabricate a PlanResult carrying
str(uuid.uuid4()) after a brief simulated delay (time not modelled). -/
def mock_plan_execution (plan_name : String) (entropy now : Nat) : PlanResult :=
  ⟨uuid4String entropy, plan_name, now⟩

/-- HTTP calls a plan method can issue. -/
inductive NetCall where
  | queueItemAdd
  | queueStart
  | historyGet
deriving DecidableEq, Repr

/-- Remote queue server behavior seen by one submission: the item uid
the add-item endpoint returns and the history response of each poll. -/
structure ServerEnv where
  item_uid : String
  histories : Nat → List HistoryEntry

/-- Outcome of a plan method: a PlanResult, or one of the error kinds of
the client (ValueError on parameters, RuntimeError on a failed or
unknown terminal status, TimeoutError on an elapsed wait). -/
inductive PlanOutcome where
  | ok (r : PlanResult)
  | invalidParameter
  | execFailure (status : String)
  | timedOut
deriving DecidableEq, Repr

/-- Shared real-mode tail of every plan method: _submit_plan posts the
item and starts the queue, then _wait_for_completion polls the history
endpoint; the issued calls are recorded in order. -/
def submit_and_wait (plan_name : String) (env : ServerEnv) (now : Nat) :
    List NetCall × PlanOutcome :=
  let w := wait_for_completion env.item_uid env.histories DEFAULT_TIMEOUT
  ([NetCall.queueItemAdd, NetCall.queueStart] ++
      List.replicate w.1 NetCall.historyGet,
    match w.2 with
    | .success u => .ok ⟨u, plan_name, now⟩
    | .execFailure s => .execFailure s
    | .timedOut => .timedOut)

/-- The method count: validate the detectors, then in mock mode return a
fabricated result with no network call, otherwise submit and wait. The
num and metadata arguments only enter the posted payload, which the
abstract server behavior already accounts for. -/
def count (mock_mode : Bool) (detectors : List String) (_num : Nat)
    (entropy now : Nat) (env : ServerEnv) : List NetCall × PlanOutcome :=
  if validate_detectors detectors = false then ([], .invalidParameter)
  else if mock_mode = true then ([], .ok (mock_plan_execution "count" entropy now))
  else submit_and_wait "count" env now

/-- The method scan: validate the detectors and the motor, then as for
count. The start, stop, num and metadata arguments only enter the
posted payload. -/
def scan (mock_mode : Bool) (detectors : List String) (motor : String)
    (_start _stop : Int) (_num : Nat) (entropy now : Nat) (env : ServerEnv) :
    List NetCall × PlanOutcome :=
  if validate_detectors detectors = false then ([], .invalidParameter)
  else if validate_motor motor = false then ([], .invalidParameter)
  else if mock_mode = true then ([], .ok (mock_plan_execution "scan" entropy now))
  else submit_and_wait "scan" env now

/-- The method automatic_gisaxs_alignment: no parameter validation; in
mock mode a long simulated delay (time not modelled) and a fabricated
result, otherwise submit and wait. -/
def automatic_gisaxs_alignment (mock_mode : Bool) (entropy now : Nat)
    (env : ServerEnv) : List NetCall × PlanOutcome :=
  if mock_mode = true then
    ([], .ok (mock_plan_execution "automatic_gisaxs_alignment" entropy now))
  else submit_and_wait "automatic_gisaxs_alignment" env now

/-- The method automatic_diode_alignment: no parameter validation; the
range and point-count arguments only enter the posted payload. -/
def automatic_diode_alignment (mock_mode : Bool) (_x_range _y_range : Int)
    (_x_points _y_points : Nat) (entropy now : Nat) (env : ServerEnv) :
    List NetCall × PlanOutcome :=
  if mock_mode = true then
    ([], .ok (mock_plan_execution "automatic_diode_alignment" entropy now))
  else submit_and_wait "automatic_diode_alignment" env now

/-- Claim C4: a submission with a detector outside the allow-list, for
count as well as scan, or a scan with a motor outside the allow-list,
raises ValueError with no network call issued. -/
theorem invalid_params_rejected_before_network
    (mock_mode : Bool) (detectors : List String) (motor : String)
    (start stop : Int) (num entropy now : Nat) (env : ServerEnv) :
    ((∃ d ∈ detectors, d ∉ BL531_DETECTORS) →
      count mock_mode detectors num entropy now env = ([], .invalidParameter) ∧
      scan mock_mode detectors motor start stop num entropy now env =
        ([], .invalidParameter)) ∧
    (motor ∉ BL531_MOTORS →
      scan mock_mode detectors motor start stop num entropy now env =
        ([], .invalidParameter)) := by
  constructor
  · rintro ⟨d, hdm, hdn⟩
    have hval : validate_detectors detectors = false := by
      cases hv : validate_detectors detectors
      · rfl
      · exfalso
        rw [validate_detectors, List.all_eq_true] at hv
        have hcd := hv d hdm
        exact hdn (by simpa using hcd)
    constructor
    · unfold count
      rw [if_pos hval]
    · unfold scan
      rw [if_pos hval]
  · intro hm
    have hvm : validate_motor motor = false := by
      cases hv : validate_motor motor
      · rfl
      · exfalso
        rw [validate_motor] at hv
        exact hm (by simpa using hv)
    by_cases hvd : validate_detectors detectors = false
    · unfold scan
      rw [if_pos hvd]
    · unfold scan
      rw [if_neg hvd, if_pos hvm]

/-- Server environment used by the witnesses: the outcome never depends
on it in the cases exercised. -/
def demoEnv : ServerEnv := ⟨"item-1", fun _ => []⟩

theorem invalid_params_rejected_before_network_witness :
    (∃ d ∈ ["bad_det"], d ∉ BL531_DETECTORS) ∧
    count false ["bad_det"] 1 0 0 demoEnv = ([], .invalidParameter) ∧
    scan false ["diode"] "bad_motor" 0 1 5 0 0 demoEnv = ([], .invalidParameter) :=
  ⟨⟨"bad_det", by decide, by decide⟩,
    ((invalid_params_rejected_before_network false ["bad_det"] "bad_motor"
        0 1 5 0 0 demoEnv).1 ⟨"bad_det", by decide, by decide⟩).1,
    (invalid_params_rejected_before_network false ["diode"] "bad_motor"
        0 1 5 0 0 demoEnv).2 (by decide)⟩

/-- Claim C7: with mock mode enabled, every plan method issues no
network call and returns the fabricated PlanResult, whose run uid is a
syntactically valid UUID string, for each of the four plan types. -/
theorem mock_mode_no_network_valid_uuid
    (detectors : List String) (motor : String) (start stop x_range y_range : Int)
    (num x_points y_points entropy now : Nat) (env : ServerEnv)
    (hdet : validate_detectors detectors = true)
    (hmot : validate_motor motor = true) :
    count true detectors num entropy now env =
      ([], .ok (mock_plan_execution "count" entropy now)) ∧
    scan true detectors motor start stop num entropy now env =
      ([], .ok (mock_plan_execution "scan" entropy now)) ∧
    automatic_gisaxs_alignment true entropy now env =
      ([], .ok (mock_plan_execution "automatic_gisaxs_alignment" entropy now)) ∧
    automatic_diode_alignment true x_range y_range x_points y_points entropy now env =
      ([], .ok (mock_plan_execution "automatic_diode_alignment" entropy now)) ∧
    ∀ plan_name, IsValidUUID (mock_plan_execution plan_name entropy now).run_uid := by
  have h1 : ¬(validate_detectors detectors = false) := by
    rw [hdet]; simp
  have h2 : ¬(validate_motor motor = false) := by
    rw [hmot]; simp
  refine ⟨?_, ?_, rfl, rfl, fun _ => uuid4String_valid entropy⟩
  · unfold count
    rw [if_neg h1, if_pos rfl]
  · unfold scan
    rw [if_neg h1, if_neg h2, if_pos rfl]

theorem mock_mode_no_network_valid_uuid_witness :
    validate_detectors ["diode", "det"] = true ∧
    count true ["diode", "det"] 3 0 7 demoEnv =
      ([], .ok (mock_plan_execution "count" 0 7)) ∧
    IsValidUUID (mock_plan_execution "count" 0 7).run_uid :=
  ⟨by decide,
    (mock_mode_no_network_valid_uuid ["diode", "det"] "gi_angle" 0 1 1 1 3 5 5 0 7
        demoEnv (by decide) (by decide)).1,
    (mock_mode_no_network_valid_uuid ["diode", "det"] "gi_angle" 0 1 1 1 3 5 5 0 7
        demoEnv (by decide) (by decide)).2.2.2.2 "count"⟩

end BL531
